import Mathlib

/-!
Shallow embedding of the Spectrum-Studio render pipeline.

Two implementations live in the repository:
  - the WebCodecs offline path (startOfflineRendering, in the concatenated
    component inside src/vite.config.ts): decode the playlist, build an
    OfflineAudioContext timeline, negotiate a video codec, run a
    frame-stepping render loop, chunk the rendered audio, flush the
    encoders and finalize the muxer;
  - the MediaRecorder real-time path (startRendering, cancelRendering and
    the sequential write queue in src/components/StudioPhase.tsx).

JS doubles are embedded as rationals, sample positions as naturals, and
the asynchronous structure (promise chains, event handlers) as explicit
traces and state-transition functions.
-/

namespace Spectrum

/-- A playlist entry (AudioTrack): id, display name and duration in
seconds.  The duration, a JS double in the source, is embedded as a
rational. -/
structure AudioTrack where
  id : String
  name : String
  duration : ℚ
deriving DecidableEq

/-- playlistDuration = playlist.reduce((acc, t) => acc + t.duration, 0). -/
def playlistDuration (playlist : List AudioTrack) : ℚ :=
  playlist.foldl (fun acc t => acc + t.duration) 0

/-- totalDuration = playlistDuration * encodingSettings.loopCount. -/
def totalDuration (playlist : List AudioTrack) (loopCount : ℕ) : ℚ :=
  playlistDuration playlist * loopCount

/-- The fixed offline sample rate (const sampleRate = 48000). -/
def sampleRate : ℕ := 48000

/-- totalDurationSamples = Math.ceil(totalDuration * sampleRate): the frame
count of the OfflineAudioContext output buffer. -/
def totalDurationSamples (playlist : List AudioTrack) (loopCount : ℕ) : ℤ :=
  ⌈totalDuration playlist loopCount * (sampleRate : ℚ)⌉

/-- Direction argument of moveTrack. -/
inductive MoveDirection
  | up
  | down
deriving DecidableEq

/-- The destructuring swap `[a[i], a[j]] = [a[j], a[i]]`.  An out-of-range
index would create a sparse JS array (not representable as a list); the
embedding leaves the list unchanged there and every theorem below assumes
in-range indices. -/
def swapEntries (l : List α) (i j : ℕ) : List α :=
  match l[i]?, l[j]? with
  | some a, some b => (l.set i b).set j a
  | _, _ => l

/-- moveTrack from StudioPhase (identical in both copies of the component):
return unchanged when moving the first entry up or the last entry down,
otherwise swap the entry at index with its neighbour at targetIndex. -/
def moveTrack (pl : List α) (index : ℕ) (direction : MoveDirection) : List α :=
  if (direction = MoveDirection.up ∧ index = 0) ∨
      (direction = MoveDirection.down ∧ (index : ℤ) = (pl.length : ℤ) - 1) then
    pl
  else
    let targetIndex := if direction = MoveDirection.up then index - 1 else index + 1
    swapEntries pl index targetIndex

/-- A quality preset (RenderConfig): fps and target video bitrate. -/
structure RenderConfig where
  id : String
  fps : ℕ
  bitrate : ℕ
deriving DecidableEq

/-- RENDER_PRESETS[1], the default balanced preset (30 fps, 5 Mbps). -/
def balancedPreset : RenderConfig :=
  { id := "balanced", fps := 30, bitrate := 5000000 }

/-- A VideoEncoderConfig as passed to VideoEncoder.isConfigSupported. -/
structure VideoEncoderConfig where
  codec : String
  width : ℕ
  height : ℕ
  bitrate : ℕ
  framerate : ℕ
deriving DecidableEq

/-- The HEVC Main Profile configuration tried first. -/
def hevcConfig (preset : RenderConfig) : VideoEncoderConfig :=
  { codec := "hvc1.1.6.L120.B0", width := 1280, height := 720
    bitrate := preset.bitrate, framerate := preset.fps }

/-- The H.264 High Profile fallback configuration. -/
def avcHighConfig (preset : RenderConfig) : VideoEncoderConfig :=
  { codec := "avc1.640028", width := 1280, height := 720
    bitrate := preset.bitrate, framerate := preset.fps }

/-- The H.264 Baseline last-resort configuration, used without any
isConfigSupported check. -/
def avcBaselineConfig (preset : RenderConfig) : VideoEncoderConfig :=
  { codec := "avc1.420028", width := 1280, height := 720
    bitrate := preset.bitrate, framerate := preset.fps }

/-- Codec negotiation of startOfflineRendering, step 3: try HEVC; on
failure fall back to AVC High and check it; if that check also fails,
overwrite the codec string with the Baseline profile and continue (the
source performs no support check on the Baseline configuration and has no
failure path).  The first component is the chosenCodec tag handed to the
muxer. -/
def negotiateCodec (support : VideoEncoderConfig → Bool) (preset : RenderConfig) :
    String × VideoEncoderConfig :=
  if support (hevcConfig preset) then
    ("hvc1", hevcConfig preset)
  else if support (avcHighConfig preset) then
    ("avc1", avcHighConfig preset)
  else
    ("avc1", avcBaselineConfig preset)

/-- The successive stages of startOfflineRendering, in source order. -/
inductive RenderStep
  | requestFileHandle
  | decodeTracks
  | buildOfflineGraph
  | negotiateCodecStep
  | setupMuxerEncoders
  | videoRenderLoop
  | audioEncodeLoop
  | finalizePhase
deriving DecidableEq

/-- Stage order of startOfflineRendering: showSaveFilePicker first, then
decode every track, build the OfflineAudioContext graph, negotiate the
codec, create muxer and encoders, run the video loop, chunk-encode the
audio and finalize. -/
def startOfflineSteps : List RenderStep :=
  [RenderStep.requestFileHandle, RenderStep.decodeTracks,
   RenderStep.buildOfflineGraph, RenderStep.negotiateCodecStep,
   RenderStep.setupMuxerEncoders, RenderStep.videoRenderLoop,
   RenderStep.audioEncodeLoop, RenderStep.finalizePhase]

/-- One frame handed to VideoEncoder.encode: the VideoFrame timestamp and
duration in microseconds and the keyFrame flag. -/
structure VideoFrameSubmission where
  timestamp : ℚ
  duration : ℚ
  keyFrame : Bool
deriving DecidableEq

/-- totalFrames = Math.ceil(totalDuration * fps). -/
def totalFramesOf (td : ℚ) (fps : ℕ) : ℤ :=
  ⌈td * (fps : ℚ)⌉

/-- Iteration i of the render loop: time = i * frameDuration with
frameDuration = 1 / fps; the frame is submitted with timestamp
time * 1000000, duration frameDuration * 1000000 and
keyFrame = (i % (fps * 2) === 0). -/
def submittedFrame (fps : ℕ) (i : ℕ) : VideoFrameSubmission :=
  let frameDuration : ℚ := 1 / (fps : ℚ)
  let time : ℚ := (i : ℚ) * frameDuration
  { timestamp := time * 1000000
    duration := frameDuration * 1000000
    keyFrame := i % (fps * 2) == 0 }

/-- The frames submitted by the loop `for (let i = 0; i < totalFrames; i++)`.
The canvas is mounted for the whole render, so every iteration submits its
frame. -/
def renderLoopFrames (td : ℚ) (fps : ℕ) : List VideoFrameSubmission :=
  (List.range (totalFramesOf td fps).toNat).map (submittedFrame fps)

/-- Offline compositor scheduling: lay the decoded buffers end to end,
each source starting where the previous one ended (startTime accumulates
buffer.duration; positions are held in samples, exact at the fixed
sample rate). -/
def scheduleSources : List (List ℚ) → ℕ → List (ℕ × List ℚ)
  | [], _ => []
  | b :: bs, start => (start, b) :: scheduleSources bs (start + b.length)

/-- One batch of the nested loops
`for (loop of loops) for (buffer of trackBuffers) { source.start(startTime) }`:
loopCount copies of the playlist buffers scheduled back to back from 0. -/
def scheduleBatch (buffers : List (List ℚ)) (loopCount : ℕ) : List (ℕ × List ℚ) :=
  scheduleSources (List.flatten (List.replicate loopCount buffers)) 0

/-- Value contributed at sample n by a set of scheduled sources (the
destination of an audio context sums its inputs).  One channel is
modelled; both stereo channels are handled identically. -/
def sampleAt (events : List (ℕ × List ℚ)) (n : ℕ) : ℚ :=
  (events.map (fun e => if e.1 ≤ n then e.2.getD (n - e.1) 0 else 0)).sum

/-- The signal reaching offlineCtx.destination: startOfflineRendering
schedules the batch twice, once connected directly to the destination and
once through masterGain (unit gain), which is itself connected to the
destination, so the destination receives both batches summed. -/
def renderedSample (buffers : List (List ℚ)) (loopCount : ℕ) (n : ℕ) : ℚ :=
  sampleAt (scheduleBatch buffers loopCount) n +
    sampleAt (scheduleBatch buffers loopCount) n

/-- The concatenation, in playlist order, of loopCount copies of the
decoded playlist (the signal the specification describes). -/
def concatPlaylist (buffers : List (List ℚ)) (loopCount : ℕ) : List ℚ :=
  (List.replicate loopCount buffers).flatten.flatten

/-- decodeAudioData over the playlist: `for (const track of playlist)`
pushes each decoded buffer; the first failure escapes to the outer catch. -/
def decodeAllTracks (decode : AudioTrack → Except String (List ℚ)) :
    List AudioTrack → Except String (List (List ℚ))
  | [] => Except.ok []
  | t :: ts =>
    match decode t with
    | Except.error e => Except.error e
    | Except.ok b =>
      match decodeAllTracks decode ts with
      | Except.error e => Except.error e
      | Except.ok bs => Except.ok (b :: bs)

/-- Number of 1-second AudioData chunks fed to the audio encoder:
`for (offset = 0; offset < totalSamples; offset += chunkSamples)` with
chunkSamples = sampleRate. -/
def audioChunkCount (totalSamples : ℕ) : ℕ :=
  (totalSamples + (sampleRate - 1)) / sampleRate

/-- What a completed run of the pipeline hands to the encoders. -/
structure RenderOutput where
  videoFrames : List VideoFrameSubmission
  audioChunks : ℕ
  chosenCodec : String
deriving DecidableEq

/-- The startOfflineRendering pipeline after the file handle is acquired:
decode the playlist (aborting the whole run on the first failure, before
any timeline is built or any frame is submitted), then negotiate the
codec, run the render loop and chunk the rendered audio. -/
def runOfflineRender (decode : AudioTrack → Except String (List ℚ))
    (support : VideoEncoderConfig → Bool)
    (playlist : List AudioTrack) (loopCount : ℕ) (preset : RenderConfig) :
    Except String RenderOutput :=
  match decodeAllTracks decode playlist with
  | Except.error e => Except.error e
  | Except.ok _buffers =>
    Except.ok
      { videoFrames := renderLoopFrames (totalDuration playlist loopCount) preset.fps
        audioChunks := audioChunkCount (totalDurationSamples playlist loopCount).toNat
        chosenCodec := (negotiateCodec support preset).1 }

/-- Frames the video encoder received from a pipeline outcome. -/
def submittedVideoFrames (r : Except String RenderOutput) : ℕ :=
  match r with
  | Except.error _ => 0
  | Except.ok o => o.videoFrames.length

/-- Chunks the audio encoder received from a pipeline outcome. -/
def submittedAudioChunks (r : Except String RenderOutput) : ℕ :=
  match r with
  | Except.error _ => 0
  | Except.ok o => o.audioChunks

/-- Observable events of the finalizing phases of both paths. -/
inductive SinkEvent
  | flushVideo
  | flushAudio
  | finalizeMuxer
  | setProgress (percent : ℕ)
  | awaitWriteQueue
  | closeSink
  | abortSink
  | alertDone
deriving DecidableEq

/-- Finalizing tail of startOfflineRendering: await videoEncoder.flush(),
await audioEncoder.flush(), muxer.finalize(), setRenderProgress(100),
success alert.  The FileSystemWritableFileStream behind the muxer target
is never closed on this path. -/
def offlineFinalizeTrace : List SinkEvent :=
  [SinkEvent.flushVideo, SinkEvent.flushAudio, SinkEvent.finalizeMuxer,
   SinkEvent.setProgress 100, SinkEvent.alertDone]

/-- The recorder path onstop handler: setRenderProgress(100) first, then
await the pending write queue, close the sink and alert. -/
def recorderOnStopTrace : List SinkEvent :=
  [SinkEvent.setProgress 100, SinkEvent.awaitWriteQueue,
   SinkEvent.closeSink, SinkEvent.alertDone]

/-- Start tick of the n-th write of the sequential queue
`writeQueueRef.current = writeQueueRef.current.then(write)`: chaining on
the previous promise makes each write begin exactly when its predecessor
settles, whatever the (arbitrary) durations d of the underlying writes
and whenever the writes were enqueued. -/
def writeStart (d : ℕ → ℕ) : ℕ → ℕ
  | 0 => 0
  | n + 1 => writeStart d n + d n

/-- Settle tick of the n-th queued write. -/
def writeSettle (d : ℕ → ℕ) (n : ℕ) : ℕ :=
  writeStart d n + d n

/-- State of the output sink handle. -/
inductive SinkState
  | noSink
  | openSink
  | closedSink
  | abortedSink
deriving DecidableEq

/-- The recorder-path render state touched by cancellation: whether the
MediaRecorder is active, whether its onstop handler is still attached,
the sink, the speaker gain, the UI flags and how many chunks have been
written so far. -/
structure RecorderRenderState where
  recorderActive : Bool
  onStopAttached : Bool
  sink : SinkState
  gainValue : ℚ
  isRendering : Bool
  isPlaying : Bool
  framesWritten : ℕ
deriving DecidableEq

/-- One ondataavailable delivery: a chunk is written only while the
recorder is active and the sink open. -/
def dataAvailableStep (s : RecorderRenderState) : RecorderRenderState :=
  if s.recorderActive ∧ s.sink = SinkState.openSink then
    { s with framesWritten := s.framesWritten + 1 }
  else
    s

/-- cancelRendering of StudioPhase: null the onstop handler (so the close
path never runs), stop the recorder, abort the writable stream if there is
one (abort on a non-open stream throws and is swallowed by the empty
catch), clear the UI flags, pause playback and restore the speaker gain
to 1. -/
def cancelRendering (s : RecorderRenderState) : RecorderRenderState :=
  let s1 := { s with onStopAttached := false, recorderActive := false }
  let s2 := if s1.sink = SinkState.openSink then
      { s1 with sink := SinkState.abortedSink }
    else
      s1
  { s2 with isRendering := false, isPlaying := false, gainValue := 1 }

/-- A completed output file exists only when the sink was successfully
closed (an aborted FileSystemWritableFileStream discards its staged
data). -/
def completedOutputFile (s : RecorderRenderState) : Prop :=
  s.sink = SinkState.closedSink

/-- The two-track playlist of the specification example: 3.0 s and 2.0 s. -/
def twoTrackPlaylist : List AudioTrack :=
  [{ id := "t1", name := "Track 1", duration := 3 },
   { id := "t2", name := "Track 2", duration := 2 }]

/-- The entry of renderLoopFrames at index i is the frame of loop
iteration i. -/
theorem renderLoopFrames_get (td : ℚ) (fps : ℕ) (i : ℕ)
    (h : i < (renderLoopFrames td fps).length) :
    (renderLoopFrames td fps).get ⟨i, h⟩ = submittedFrame fps i := by
  simp [renderLoopFrames]

/-- Claim C1: for every fps > 0 and nonnegative totalDuration, the offline
render loop submits exactly totalFrames = ceil(totalDuration * fps) video
frames, frame i carrying timestamp i / fps * 1000000 microseconds, so the
submitted timestamps are strictly increasing. -/
theorem offline_loop_frame_count_and_timestamps (td : ℚ) (fps : ℕ)
    (htd : 0 ≤ td) (hfps : 0 < fps) :
    ((renderLoopFrames td fps).length : ℤ) = totalFramesOf td fps ∧
    totalFramesOf td fps = ⌈td * (fps : ℚ)⌉ ∧
    (∀ i, ∀ h : i < (renderLoopFrames td fps).length,
      ((renderLoopFrames td fps).get ⟨i, h⟩).timestamp =
        (i : ℚ) / (fps : ℚ) * 1000000) ∧
    (∀ i j, ∀ hi : i < (renderLoopFrames td fps).length,
      ∀ hj : j < (renderLoopFrames td fps).length, i < j →
      ((renderLoopFrames td fps).get ⟨i, hi⟩).timestamp <
        ((renderLoopFrames td fps).get ⟨j, hj⟩).timestamp) := by
  have hts : ∀ i, ∀ h : i < (renderLoopFrames td fps).length,
      ((renderLoopFrames td fps).get ⟨i, h⟩).timestamp =
        (i : ℚ) / (fps : ℚ) * 1000000 := by
    intro i h
    rw [renderLoopFrames_get]
    simp [submittedFrame, one_div, div_eq_mul_inv]
  refine ⟨?_, rfl, hts, ?_⟩
  · have hnn : (0 : ℤ) ≤ totalFramesOf td fps := by
      apply Int.ceil_nonneg
      positivity
    simp only [renderLoopFrames, List.length_map, List.length_range]
    exact Int.toNat_of_nonneg hnn
  · intro i j hi hj hij
    rw [hts i hi, hts j hj]
    have hf : (0 : ℚ) < fps := by exact_mod_cast hfps
    have hij' : (i : ℚ) < j := by exact_mod_cast hij
    gcongr

/-- Witness for C1 at totalDuration = 10 s and fps = 30. -/
theorem offline_loop_frame_count_and_timestamps_witness :
    (0 : ℚ) ≤ 10 ∧ 0 < 30 ∧
      ((renderLoopFrames 10 30).length : ℤ) = totalFramesOf 10 30 :=
  ⟨by norm_num, by norm_num,
    (offline_loop_frame_count_and_timestamps 10 30 (by norm_num) (by norm_num)).1⟩

/-- Claim C3: a submitted frame is flagged as a keyframe exactly when its
index is a multiple of fps * 2; for the two-track (3.0 s, 2.0 s) playlist
with loopCount 2 and fps 30, totalDuration is 10.0 s, totalFrames is 300,
and the keyframe flag is set precisely at frames 0, 60, 120, 180, 240. -/
theorem keyframe_flag_spec :
    (∀ fps i, ((submittedFrame fps i).keyFrame = true ↔ (fps * 2) ∣ i)) ∧
    totalDuration twoTrackPlaylist 2 = 10 ∧
    totalFramesOf (totalDuration twoTrackPlaylist 2) 30 = 300 ∧
    (List.range 300).filter (fun i => (submittedFrame 30 i).keyFrame) =
      [0, 60, 120, 180, 240] := by
  have hdur : totalDuration twoTrackPlaylist 2 = 10 := by
    norm_num [totalDuration, playlistDuration, twoTrackPlaylist]
  refine ⟨?_, hdur, ?_, ?_⟩
  · intro fps i
    simp [submittedFrame, Nat.dvd_iff_mod_eq_zero]
  · rw [hdur]
    norm_num [totalFramesOf]
  · decide

/-- Claim C4 counterexample: with a runtime that supports no video codec
configuration, negotiation still succeeds (the Baseline profile is chosen
with no support check), and the output file handle is requested at stage 0
of startOfflineRendering, before codec negotiation at stage 3. -/
theorem codec_negotiation_counterexample :
    negotiateCodec (fun _ => false) balancedPreset =
      ("avc1", avcBaselineConfig balancedPreset) ∧
    startOfflineSteps.indexOf RenderStep.requestFileHandle = 0 ∧
    startOfflineSteps.indexOf RenderStep.negotiateCodecStep = 3 := by
  refine ⟨rfl, ?_, ?_⟩ <;> decide

/-- Claim C4 amended: when neither the HEVC nor the AVC High configuration
is supported, the render does not fail at negotiation: the AVC Baseline
configuration is selected without any support check, and the output file
handle has already been requested (stage order) before codec negotiation
runs. -/
theorem codec_negotiation_fallback (support : VideoEncoderConfig → Bool)
    (preset : RenderConfig)
    (h1 : support (hevcConfig preset) = false)
    (h2 : support (avcHighConfig preset) = false) :
    negotiateCodec support preset = ("avc1", avcBaselineConfig preset) ∧
    startOfflineSteps.indexOf RenderStep.requestFileHandle <
      startOfflineSteps.indexOf RenderStep.negotiateCodecStep := by
  constructor
  · simp [negotiateCodec, h1, h2]
  · decide

/-- Witness for the amended C4 with a support predicate rejecting every
configuration. -/
theorem codec_negotiation_fallback_witness :
    ((fun _ : VideoEncoderConfig => false) (hevcConfig balancedPreset) = false) ∧
    negotiateCodec (fun _ => false) balancedPreset =
      ("avc1", avcBaselineConfig balancedPreset) :=
  ⟨rfl, (codec_negotiation_fallback (fun _ => false) balancedPreset rfl rfl).1⟩

/-- writeStart is monotone: a later queue position starts no earlier. -/
theorem writeStart_le_writeStart (d : ℕ → ℕ) {i j : ℕ} (h : i ≤ j) :
    writeStart d i ≤ writeStart d j := by
  induction j with
  | zero => simp [Nat.le_zero.mp h]
  | succ n ih =>
    rcases Nat.lt_or_ge i (n + 1) with hlt | hge
    · refine le_trans (ih (Nat.lt_succ_iff.mp hlt)) ?_
      show writeStart d n ≤ writeStart d (n + 1)
      simp [writeStart]
    · have : i = n + 1 := le_antisymm h hge
      simp [this]

/-- Claim C8: in the sequential write queue, for any two writes enqueued at
positions i then j, the write at i settles no later than the write at j
begins, whatever the durations of the underlying writes (in particular when
both were enqueued in the same tick). -/
theorem write_queue_serializes (d : ℕ → ℕ) (i j : ℕ) (h : i < j) :
    writeSettle d i ≤ writeStart d j := by
  have hstep : writeStart d (i + 1) ≤ writeStart d j := writeStart_le_writeStart d h
  simpa [writeSettle, writeStart] using hstep

/-- Witness for C8 with unit-duration writes at positions 0 and 1. -/
theorem write_queue_serializes_witness :
    0 < 1 ∧ writeSettle (fun _ => 2) 0 ≤ writeStart (fun _ => 2) 1 :=
  ⟨by decide, write_queue_serializes (fun _ => 2) 0 1 (by decide)⟩

/-- Claim C2 evaluation at a failing input: with a single decoded
one-sample track of value 1 and loopCount 1, the destination receives the
sample twice (output value 2, since the batch is scheduled both directly
and through the master gain), while the concatenation of one copy of the
playlist holds the value 1 exactly once. -/
theorem compositor_double_scheduling :
    renderedSample [[1]] 1 0 = 2 ∧ (concatPlaylist [[1]] 1).getD 0 0 = 1 := by
  constructor
  · norm_num [renderedSample, sampleAt, scheduleBatch, scheduleSources]
  · norm_num [concatPlaylist]

/-- The decoding loop propagates the first failure: when every track ahead
of t decodes and t fails, the whole decode pass fails with the same
message. -/
theorem decodeAllTracks_error (decode : AudioTrack → Except String (List ℚ))
    (pre : List AudioTrack) (t : AudioTrack) (post : List AudioTrack)
    (msg : String)
    (hpre : ∀ t' ∈ pre, ∃ b, decode t' = Except.ok b)
    (ht : decode t = Except.error msg) :
    decodeAllTracks decode (pre ++ t :: post) = Except.error msg := by
  induction pre with
  | nil => simp [decodeAllTracks, ht]
  | cons p ps ih =>
    obtain ⟨b, hb⟩ := hpre p (by simp)
    have hrec := ih (fun t' ht' => hpre t' (by simp [ht']))
    simp [decodeAllTracks, hb, hrec]

/-- Claim C5: if decoding any track of the playlist fails (all earlier
tracks decoding fine), the render aborts with that decode error, no
timeline is built, and zero frames and zero chunks are submitted to the
video and audio encoders. -/
theorem decode_failure_aborts (decode : AudioTrack → Except String (List ℚ))
    (support : VideoEncoderConfig → Bool)
    (pre : List AudioTrack) (t : AudioTrack) (post : List AudioTrack)
    (loopCount : ℕ) (preset : RenderConfig) (msg : String)
    (hpre : ∀ t' ∈ pre, ∃ b, decode t' = Except.ok b)
    (ht : decode t = Except.error msg) :
    runOfflineRender decode support (pre ++ t :: post) loopCount preset =
      Except.error msg ∧
    submittedVideoFrames
      (runOfflineRender decode support (pre ++ t :: post) loopCount preset) = 0 ∧
    submittedAudioChunks
      (runOfflineRender decode support (pre ++ t :: post) loopCount preset) = 0 := by
  have herr := decodeAllTracks_error decode pre t post msg hpre ht
  refine ⟨?_, ?_, ?_⟩ <;>
    simp [runOfflineRender, herr, submittedVideoFrames, submittedAudioChunks]

/-- Witness for C5: the specification example where the second track fails
to decode. -/
theorem decode_failure_aborts_witness :
    (fun tr : AudioTrack =>
        if tr.id = "t1" then Except.ok [(0 : ℚ)] else Except.error "decode failed")
      { id := "t2", name := "Track 2", duration := 2 } =
        Except.error "decode failed" ∧
    runOfflineRender
      (fun tr =>
        if tr.id = "t1" then Except.ok [(0 : ℚ)] else Except.error "decode failed")
      (fun _ => true) twoTrackPlaylist 2 balancedPreset =
        Except.error "decode failed" := by
  refine ⟨by simp, ?_⟩
  have h := decode_failure_aborts
    (fun tr =>
      if tr.id = "t1" then Except.ok [(0 : ℚ)] else Except.error "decode failed")
    (fun _ => true)
    [{ id := "t1", name := "Track 1", duration := 3 }]
    { id := "t2", name := "Track 2", duration := 2 } [] 2 balancedPreset
    "decode failed"
    (by
      intro t' ht'
      simp only [List.mem_singleton] at ht'
      subst ht'
      exact ⟨[(0 : ℚ)], by simp⟩)
    (by simp)
  exact h.1

/-- Moving the foldl of the source onto the mapped durations. -/
theorem playlistDuration_eq_sum (playlist : List AudioTrack) :
    playlistDuration playlist = (playlist.map (fun t => t.duration)).sum := by
  rw [playlistDuration, List.sum_eq_foldl, List.foldl_map]

/-- Claim C6: for loopCount ≥ 1 the compositor output buffer holds
ceil(totalDuration * 48000) frames, so its duration (in seconds, at the
fixed 48 kHz rate) equals loopCount * sum(track durations) to within one
sample period. -/
theorem compositor_buffer_duration (playlist : List AudioTrack) (loopCount : ℕ)
    (_h : 1 ≤ loopCount) :
    totalDuration playlist loopCount =
      (loopCount : ℚ) * (playlist.map (fun t => t.duration)).sum ∧
    totalDurationSamples playlist loopCount =
      ⌈totalDuration playlist loopCount * (sampleRate : ℚ)⌉ ∧
    totalDuration playlist loopCount ≤
      (totalDurationSamples playlist loopCount : ℚ) / (sampleRate : ℚ) ∧
    (totalDurationSamples playlist loopCount : ℚ) / (sampleRate : ℚ) <
      totalDuration playlist loopCount + 1 / (sampleRate : ℚ) := by
  have hs : (0 : ℚ) < (sampleRate : ℚ) := by norm_num [sampleRate]
  refine ⟨?_, rfl, ?_, ?_⟩
  · rw [totalDuration, playlistDuration_eq_sum, mul_comm]
  · rw [le_div_iff₀ hs]
    exact_mod_cast Int.le_ceil (totalDuration playlist loopCount * (sampleRate : ℚ))
  · rw [div_lt_iff₀ hs]
    have hceil := Int.ceil_lt_add_one
      (totalDuration playlist loopCount * (sampleRate : ℚ))
    calc (totalDurationSamples playlist loopCount : ℚ)
        < totalDuration playlist loopCount * (sampleRate : ℚ) + 1 := hceil
      _ = (totalDuration playlist loopCount + 1 / (sampleRate : ℚ)) *
            (sampleRate : ℚ) := by field_simp

/-- Witness for C6 at the two-track playlist with loopCount 2. -/
theorem compositor_buffer_duration_witness :
    1 ≤ 2 ∧
    totalDuration twoTrackPlaylist 2 =
      (2 : ℚ) * (twoTrackPlaylist.map (fun t => t.duration)).sum :=
  ⟨by norm_num, (compositor_buffer_duration twoTrackPlaylist 2 (by norm_num)).1⟩

/-- Claim C7 evaluation: the offline finalizing phase awaits both encoder
flushes and finalizes the muxer, but contains no close of the output sink,
yet still sets progress to 100; the recorder onstop handler sets progress
to 100 before the sink close. -/
theorem finalize_progress_without_close :
    SinkEvent.closeSink ∉ offlineFinalizeTrace ∧
    SinkEvent.setProgress 100 ∈ offlineFinalizeTrace ∧
    SinkEvent.flushVideo ∈ offlineFinalizeTrace ∧
    SinkEvent.flushAudio ∈ offlineFinalizeTrace ∧
    SinkEvent.finalizeMuxer ∈ offlineFinalizeTrace ∧
    recorderOnStopTrace.indexOf (SinkEvent.setProgress 100) <
      recorderOnStopTrace.indexOf SinkEvent.closeSink := by
  refine ⟨?_, ?_, ?_, ?_, ?_, ?_⟩ <;> decide

/-- Claim C9: cancelling while rendering with an open sink aborts the sink
(which is therefore neither finalized nor closed, so no completed output
file exists), detaches the stop handler and stops the recorder so that no
further chunk is written, and restores the speaker gain to 1. -/
theorem cancel_aborts_sink (s : RecorderRenderState)
    (_hr : s.isRendering = true) (hsink : s.sink = SinkState.openSink) :
    (cancelRendering s).sink = SinkState.abortedSink ∧
    (cancelRendering s).sink ≠ SinkState.closedSink ∧
    ¬ completedOutputFile (cancelRendering s) ∧
    (cancelRendering s).gainValue = 1 ∧
    (cancelRendering s).recorderActive = false ∧
    dataAvailableStep (cancelRendering s) = cancelRendering s := by
  simp [cancelRendering, dataAvailableStep, completedOutputFile, hsink]

/-- Witness for C9 at a concrete mid-render state (5 chunks written). -/
theorem cancel_aborts_sink_witness :
    ((⟨true, true, SinkState.openSink, 0, true, true, 5⟩ :
        RecorderRenderState).isRendering = true) ∧
    (cancelRendering
        ⟨true, true, SinkState.openSink, 0, true, true, 5⟩).gainValue = 1 :=
  ⟨rfl,
    (cancel_aborts_sink ⟨true, true, SinkState.openSink, 0, true, true, 5⟩
      rfl rfl).2.2.2.1⟩

/-- swapEntries is symmetric in its two indices. -/
theorem swapEntries_comm (l : List α) (i j : ℕ) (hij : i ≠ j) :
    swapEntries l i j = swapEntries l j i := by
  unfold swapEntries
  cases hi : l[i]? <;> cases hj : l[j]? <;> simp [hi, hj]
  exact List.set_comm _ _ l hij

/-- swapEntries at successor indices peels the head. -/
theorem swapEntries_cons_succ (x : α) (t : List α) (n m : ℕ) :
    swapEntries (x :: t) (n + 1) (m + 1) = x :: swapEntries t n m := by
  unfold swapEntries
  cases hn : t[n]? <;> cases hm : t[m]? <;> simp [hn, hm]

/-- An in-range adjacent swap: the list splits around the two entries, and
swapEntries exchanges exactly those two entries. -/
theorem swapEntries_adjacent (l : List α) (i : ℕ) (h : i + 1 < l.length) :
    ∃ a b, l = l.take i ++ a :: b :: l.drop (i + 2) ∧
      swapEntries l i (i + 1) = l.take i ++ b :: a :: l.drop (i + 2) := by
  induction l generalizing i with
  | nil => simp at h
  | cons x t ih =>
    cases i with
    | zero =>
      cases t with
      | nil => simp at h
      | cons y t' => exact ⟨x, y, by simp, by simp [swapEntries]⟩
    | succ n =>
      have h' : n + 1 < t.length := by simpa using h
      obtain ⟨a, b, hdecomp, hswap⟩ := ih n h'
      refine ⟨a, b, ?_, ?_⟩
      · calc x :: t = x :: (t.take n ++ a :: b :: t.drop (n + 2)) := by
              rw [← hdecomp]
          _ = (x :: t).take (n + 1) ++ a :: b :: (x :: t).drop (n + 3) := by
              simp
      · rw [swapEntries_cons_succ, hswap]
        simp

/-- An in-range adjacent swap is a permutation of the original list. -/
theorem swapEntries_adjacent_perm (l : List α) (i : ℕ) (h : i + 1 < l.length) :
    (swapEntries l i (i + 1)).Perm l := by
  obtain ⟨a, b, hdecomp, hswap⟩ := swapEntries_adjacent l i h
  rw [hswap]
  conv_rhs => rw [hdecomp]
  exact List.Perm.append_left _ (List.Perm.swap a b _)

/-- An in-range adjacent swap preserves the length. -/
theorem swapEntries_adjacent_length (l : List α) (i : ℕ) (h : i + 1 < l.length) :
    (swapEntries l i (i + 1)).length = l.length :=
  (swapEntries_adjacent_perm l i h).length_eq

/-- Claim C10: for an in-range index, moveTrack is the identity when moving
the first track up or the last track down; in every other case it swaps
exactly the two adjacent entries at the given index and its neighbour, so
length and the multiset of tracks are preserved by every call. -/
theorem moveTrack_swap_spec (pl : List α) (index : ℕ)
    (direction : MoveDirection) (h : index < pl.length) :
    (moveTrack pl index direction).length = pl.length ∧
    (moveTrack pl index direction).Perm pl ∧
    ((direction = MoveDirection.up ∧ index = 0) ∨
        (direction = MoveDirection.down ∧ index = pl.length - 1) →
      moveTrack pl index direction = pl) ∧
    (direction = MoveDirection.down → index + 1 < pl.length →
      ∃ a b, pl = pl.take index ++ a :: b :: pl.drop (index + 2) ∧
        moveTrack pl index direction =
          pl.take index ++ b :: a :: pl.drop (index + 2)) ∧
    (direction = MoveDirection.up → 0 < index →
      ∃ a b, pl = pl.take (index - 1) ++ a :: b :: pl.drop (index + 1) ∧
        moveTrack pl index direction =
          pl.take (index - 1) ++ b :: a :: pl.drop (index + 1)) := by
  cases direction with
  | up =>
    cases Nat.eq_zero_or_pos index with
    | inl hzero =>
      subst hzero
      have hid : moveTrack pl 0 MoveDirection.up = pl := by
        simp [moveTrack]
      refine ⟨by rw [hid], by rw [hid], fun _ => hid, ?_, ?_⟩
      · intro hdir
        cases hdir
      · intro _ hpos
        exact absurd hpos (by simp)
    | inr hpos =>
      obtain ⟨i, rfl⟩ : ∃ i, index = i + 1 := ⟨index - 1, by omega⟩
      have hguard : ¬ ((MoveDirection.up = MoveDirection.up ∧ i + 1 = 0) ∨
          (MoveDirection.up = MoveDirection.down ∧
            ((i + 1 : ℕ) : ℤ) = (pl.length : ℤ) - 1)) := by
        simp
      have hmt : moveTrack pl (i + 1) MoveDirection.up =
          swapEntries pl i (i + 1) := by
        rw [moveTrack, if_neg hguard]
        simp only [if_pos rfl]
        exact swapEntries_comm pl (i + 1) i (by omega)
      have hadj : i + 1 < pl.length := h
      obtain ⟨a, b, hdecomp, hswap⟩ := swapEntries_adjacent pl i hadj
      refine ⟨?_, ?_, ?_, ?_, ?_⟩
      · rw [hmt]
        exact swapEntries_adjacent_length pl i hadj
      · rw [hmt]
        exact swapEntries_adjacent_perm pl i hadj
      · rintro (⟨_, hz⟩ | ⟨hdir, _⟩)
        · omega
        · cases hdir
      · intro hdir
        cases hdir
      · intro _ _
        exact ⟨a, b, hdecomp, hmt.trans hswap⟩
  | down =>
    by_cases hlast : index = pl.length - 1
    · have hid : moveTrack pl index MoveDirection.down = pl := by
        rw [moveTrack, if_pos]
        right
        exact ⟨rfl, by omega⟩
      refine ⟨by rw [hid], by rw [hid], fun _ => hid, ?_, ?_⟩
      · intro _ hrange
        omega
      · intro hdir
        cases hdir
    · have hguard : ¬ ((MoveDirection.down = MoveDirection.up ∧ index = 0) ∨
          (MoveDirection.down = MoveDirection.down ∧
            (index : ℤ) = (pl.length : ℤ) - 1)) := by
        simp
        omega
      have hmt : moveTrack pl index MoveDirection.down =
          swapEntries pl index (index + 1) := by
        rw [moveTrack, if_neg hguard]
        simp
      have hadj : index + 1 < pl.length := by omega
      obtain ⟨a, b, hdecomp, hswap⟩ := swapEntries_adjacent pl index hadj
      refine ⟨?_, ?_, ?_, ?_, ?_⟩
      · rw [hmt]
        exact swapEntries_adjacent_length pl index hadj
      · rw [hmt]
        exact swapEntries_adjacent_perm pl index hadj
      · rintro (⟨hdir, _⟩ | ⟨_, hz⟩)
        · cases hdir
        · omega
      · intro _ _
        exact ⟨a, b, hdecomp, by rw [hmt, hswap]⟩
      · intro hdir
        cases hdir

/-- Witness for C10: moving the middle entry of a three-element playlist
down preserves the length. -/
theorem moveTrack_swap_spec_witness :
    1 < ([10, 20, 30] : List ℕ).length ∧
    (moveTrack [10, 20, 30] 1 MoveDirection.down).length =
      ([10, 20, 30] : List ℕ).length :=
  ⟨by decide, (moveTrack_swap_spec [10, 20, 30] 1 MoveDirection.down (by decide)).1⟩

end Spectrum
